import Mathlib

/-!
Verification development for the edge-core-hailo stream daemon.

This file gives a shallow embedding, in Lean 4, of the parts of the C++
source that the verified properties speak about:

* the event compositor (`src/event_compositor.cpp`): settings-JSON parsing,
  event-tree construction, terminal-event discovery, ROI checking and
  angle-violation checking;
* the inference output decoders (`src/hailo_inference.cpp`):
  `ParseNmsOutput` in full, and the final conversion stage of
  `ParseRawYoloOutput` (the loop over NMS-surviving candidates that clamps
  boxes and keypoints to the frame);
* the NATS publisher serializer (`src/nats_publisher.cpp`);
* the stream manager registry operations (`src/stream_manager.cpp`);
* the engine initialization batch-size capture and `GetBatchManager`
  (`src/hailo_inference.cpp`).

Machine floats are modelled as exact rationals (the clamping and comparison
logic under verification is value-generic); `static_cast<int>` on a float is
truncation toward zero (`ratTrunc`).  C++ `std::unordered_map` is modelled as
an association list with insert-or-replace; all properties proved about maps
are order-insensitive.  The transcendental steps of the angle-violation check
(`sqrt`, `acos`) are modelled over the real numbers.
-/

namespace EdgeCore

/-- Lowercase a single character the way C `tolower` does in the default
locale: only the ASCII range `A`..`Z` is shifted. -/
def lowerChar (c : Char) : Char :=
  if 65 ≤ c.toNat ∧ c.toNat ≤ 90 then Char.ofNat (c.toNat + 32) else c

/-- The `std::transform(.., ::tolower)` idiom used in the compositor,
character by character over the string content. -/
def lowerStr (s : String) : String :=
  ⟨s.data.map lowerChar⟩

/-- JSON values, as the nlohmann tree the compositor and publisher
manipulate.  Numbers are kept exact; object member order is the insertion
order of our model (the claims proved below only inspect objects through
`jsonLookup`, never through member order). -/
inductive Json where
  | null : Json
  | bool : Bool → Json
  | num : ℚ → Json
  | str : String → Json
  | arr : List Json → Json
  | obj : List (String × Json) → Json

/-- Member lookup in a JSON object; `none` on a missing key or a non-object. -/
def jsonLookup (j : Json) (key : String) : Option Json :=
  match j with
  | .obj fields => (fields.find? (fun p => p.1 == key)).map (·.2)
  | _ => none

/-- The `contains` test of nlohmann json. -/
def jsonContains (j : Json) (key : String) : Bool :=
  (jsonLookup j key).isSome

/-- The `is_array` test. -/
def jsonIsArr (j : Json) : Bool :=
  match j with
  | .arr _ => true
  | _ => false

/-- The `is_string` test. -/
def jsonIsStr (j : Json) : Bool :=
  match j with
  | .str _ => true
  | _ => false

/-- The `is_object` test. -/
def jsonIsObj (j : Json) : Bool :=
  match j with
  | .obj _ => true
  | _ => false

/-- The `is_null` test. -/
def jsonIsNull (j : Json) : Bool :=
  match j with
  | .null => true
  | _ => false

/-- Elements of a JSON array (empty for non-arrays; the code always guards
with `is_array` first). -/
def jsonItems (j : Json) : List Json :=
  match j with
  | .arr xs => xs
  | _ => []

/-- Array indexing, as `point[0]` (guarded by a size check in the code). -/
def jsonAt (j : Json) (i : ℕ) : Json :=
  (jsonItems j).getD i .null

/-- nlohmann `get<std::string>`: succeeds only on a string, otherwise the
conversion throws a `json::exception`. -/
def jsonGetStr (j : Json) : Except String String :=
  match j with
  | .str s => Except.ok s
  | _ => Except.error "type must be string"

/-- nlohmann `get<float>` / `get<double>`: succeeds on any JSON number. -/
def jsonGetFloat (j : Json) : Except String ℚ :=
  match j with
  | .num q => Except.ok q
  | _ => Except.error "type must be number"

/-- Truncation toward zero, the semantics of `static_cast<int>` on a float
value that is in range. -/
def ratTrunc (q : ℚ) : ℤ :=
  if 0 ≤ q then ⌊q⌋ else -⌊-q⌋

/-- nlohmann `get<int>`: succeeds on any JSON number (a float is truncated). -/
def jsonGetInt (j : Json) : Except String ℤ :=
  match j with
  | .num q => Except.ok (ratTrunc q)
  | _ => Except.error "type must be number"

/-- nlohmann `get<bool>`: succeeds only on a boolean. -/
def jsonGetBool (j : Json) : Except String Bool :=
  match j with
  | .bool b => Except.ok b
  | _ => Except.error "type must be boolean"

/-! Shared data model (`include/common.h`). -/

/-- Integer pixel rectangle, `struct BoundingBox`. -/
structure BoundingBox where
  x : ℤ := 0
  y : ℤ := 0
  width : ℤ := 0
  height : ℤ := 0
deriving DecidableEq

/-- Pose keypoint, `struct Keypoint`; coordinates are claimed normalized. -/
structure Keypoint where
  x : ℚ := 0
  y : ℚ := 0
  visible : ℚ := 0
deriving DecidableEq

/-- Detection result, `struct Detection`. -/
structure Detection where
  class_name : String := ""
  class_id : ℤ := 0
  confidence : ℚ := 0
  bbox : BoundingBox := {}
  event_setting_ids : List String := []
  keypoints : List Keypoint := []
deriving DecidableEq

/-! Event compositor data model (`include/event_compositor.h`).  The header
in the tree lacks the `kAngleViolation` enumerator and the `angle_threshold`
field that `src/event_compositor.cpp` uses; both are included here the way
the `.cpp` (and the spec) use them. -/

/-- Normalized 2-D point, `struct Point2D`. -/
structure Point2D where
  x : ℚ := 0
  y : ℚ := 0
deriving DecidableEq

/-- Event kinds, `enum class EventType`. -/
inductive EventType where
  | roi | line | angleViolation | and | or | speed | hm | filterT | enex | alarm | unknown
deriving DecidableEq

/-- Anchor choice, `enum class DetectionPoint`. -/
inductive DetectionPoint where
  | leftTop | centerTop | rightTop
  | leftCenter | center | rightCenter
  | leftBottom | centerBottom | rightBottom
deriving DecidableEq

/-- Line direction, `enum class LineDirection`. -/
inductive LineDirection where
  | a2b | b2a | both
deriving DecidableEq

/-- Target filter, `struct TargetFilter`. -/
structure TargetFilter where
  labels : List String := []
  class_type : String := ""
  result_label : List String := []
deriving DecidableEq

/-- One event setting, `struct EventSetting`, with the defaults of the
header (plus `angle_threshold`, present only in the `.cpp`). -/
structure EventSetting where
  event_setting_id : String := ""
  event_setting_name : String := ""
  event_type : EventType := .unknown
  parent_id : String := ""
  points : List Point2D := []
  target : TargetFilter := {}
  timeout : ℚ := 0
  detection_point : DetectionPoint := .centerBottom
  direction : LineDirection := .both
  keypoints : List ℤ := []
  warning_distance : ℚ := 1/10
  angle_threshold : ℚ := 0
  in_order : Bool := false
  ncond : String := ""
  turn : ℤ := 0
  regen_interval : ℚ := 60
  ext : String := ""
  children : List String := []
deriving DecidableEq

/-- String to `EventType`, `ParseEventType` (case-insensitive). -/
def parseEventType (type_str : String) : EventType :=
  let lower := lowerStr type_str
  if lower = "roi" then .roi
  else if lower = "line" then .line
  else if lower = "angleviolation" then .angleViolation
  else if lower = "and" then .and
  else if lower = "or" then .or
  else if lower = "speed" then .speed
  else if lower = "hm" then .hm
  else if lower = "filter" then .filterT
  else if lower = "enex" then .enex
  else if lower = "alarm" then .alarm
  else .unknown

/-- String to `DetectionPoint`, `ParseDetectionPoint`. -/
def parseDetectionPoint (dp_str : String) : DetectionPoint :=
  if dp_str = "l:t" then .leftTop
  else if dp_str = "c:t" then .centerTop
  else if dp_str = "r:t" then .rightTop
  else if dp_str = "l:c" then .leftCenter
  else if dp_str = "c:c" then .center
  else if dp_str = "r:c" then .rightCenter
  else if dp_str = "l:b" then .leftBottom
  else if dp_str = "c:b" then .centerBottom
  else if dp_str = "r:b" then .rightBottom
  else .centerBottom

/-- String to `LineDirection`, `ParseDirection`. -/
def parseDirection (dir_str : String) : LineDirection :=
  if dir_str = "A2B" then .a2b
  else if dir_str = "B2A" then .b2a
  else if dir_str = "BOTH" then .both
  else .both

/-- Shorthand for `config["key"]` after a `contains` guard. -/
def jsonField (j : Json) (key : String) : Json :=
  (jsonLookup j key).getD .null

/-! Association-list model of `std::unordered_map<std::string, EventSetting>`.
`settings_[id] = setting` is insert-or-replace; iteration order is the list
order (all the properties proved below are order-insensitive). -/

/-- Key lookup, `map.find(id)`. -/
def lookupKey {β : Type} (l : List (String × β)) (k : String) : Option β :=
  (l.find? (fun p => p.1 == k)).map (·.2)

/-- Key membership. -/
def containsKey {β : Type} (l : List (String × β)) (k : String) : Bool :=
  l.any (fun p => p.1 == k)

/-- Insert-or-replace, `map[k] = v`. -/
def insertKV {β : Type} (l : List (String × β)) (k : String) (v : β) :
    List (String × β) :=
  if containsKey l k then l.map (fun p => if p.1 == k then (k, v) else p)
  else l ++ [(k, v)]

/-- Append `child` to the `children` of the entry keyed `parent`. -/
def pushChild (l : List (String × EventSetting)) (parent child : String) :
    List (String × EventSetting) :=
  l.map (fun p =>
    if p.1 == parent then (p.1, { p.2 with children := p.2.children ++ [child] }) else p)

/-- Parse the `points` array of a config entry: entries that are arrays of
size at least 2 contribute an `[x, y]` point; `get<float>` on a non-number
coordinate throws. -/
def parsePoints : List Json → List Point2D → Except String (List Point2D)
  | [], acc => .ok acc
  | p :: rest, acc =>
    if jsonIsArr p ∧ 2 ≤ (jsonItems p).length then do
      let px ← jsonGetFloat (jsonAt p 0)
      let py ← jsonGetFloat (jsonAt p 1)
      parsePoints rest (acc ++ [⟨px, py⟩])
    else parsePoints rest acc

/-- Parse an array-valued `targets` field: string entries are collected until
an `ALL`/`all` sentinel clears the collection and stops the loop. -/
def parseTargetsArr : List Json → List String → List String
  | [], acc => acc
  | t :: rest, acc =>
    match t with
    | .str v => if v = "ALL" ∨ v = "all" then [] else parseTargetsArr rest (acc ++ [v])
    | _ => parseTargetsArr rest acc

/-- Parse the `targets` field: an array is folded with the `ALL` sentinel, a
plain string is a singleton unless it is the sentinel, anything else leaves
the label list untouched. -/
def parseTargets (tj : Json) : List String :=
  match tj with
  | .arr ts => parseTargetsArr ts []
  | .str v => if v = "ALL" ∨ v = "all" then [] else [v]
  | _ => []

/-- Parse the `keypoints` index array; `get<int>` on a non-number throws. -/
def parseKeypointIdx : List Json → List ℤ → Except String (List ℤ)
  | [], acc => .ok acc
  | kp :: rest, acc => do
    let i ← jsonGetInt kp
    parseKeypointIdx rest (acc ++ [i])

/-- Parse a single `configs` entry the way `EventCompositor::ParseSettings`
does: an entry without `eventSettingId` is skipped (`none`); a field whose
`get<T>` conversion fails raises, aborting the whole parse. -/
def parseConfigEntry (config : Json) : Except String (Option EventSetting) := do
  if ¬ jsonContains config "eventSettingId" then return none
  let sid ← jsonGetStr (jsonField config "eventSettingId")
  let sname ← if jsonContains config "eventSettingName" then
      jsonGetStr (jsonField config "eventSettingName")
    else pure ""
  let etype ← if jsonContains config "eventType" then do
      let s ← jsonGetStr (jsonField config "eventType")
      pure (parseEventType s)
    else pure EventType.unknown
  let pid ← if jsonContains config "parentId" then
      jsonGetStr (jsonField config "parentId")
    else pure ""
  let pts ← if jsonContains config "points" ∧ jsonIsArr (jsonField config "points") then
      parsePoints (jsonItems (jsonField config "points")) []
    else pure []
  let labels0 := if jsonContains config "targets" then parseTargets (jsonField config "targets")
    else []
  let labels ← if jsonContains config "target" ∧ jsonIsObj (jsonField config "target") then do
      let tgt := jsonField config "target"
      if jsonContains tgt "label" ∧ ¬ jsonIsNull (jsonField tgt "label") then do
        let v ← jsonGetStr (jsonField tgt "label")
        pure (labels0 ++ [v])
      else pure labels0
    else pure labels0
  let tmo ← if jsonContains config "timeout" then jsonGetFloat (jsonField config "timeout")
    else pure 0
  let dp ← if jsonContains config "detectionPoint" then do
      let s ← jsonGetStr (jsonField config "detectionPoint")
      pure (parseDetectionPoint s)
    else pure DetectionPoint.centerBottom
  let dir ← if jsonContains config "direction" then do
      let s ← jsonGetStr (jsonField config "direction")
      pure (parseDirection s)
    else pure LineDirection.both
  let kps ← if jsonContains config "keypoints" ∧ jsonIsArr (jsonField config "keypoints") then
      parseKeypointIdx (jsonItems (jsonField config "keypoints")) []
    else pure []
  let wd ← if jsonContains config "warningDistance" then
      jsonGetFloat (jsonField config "warningDistance")
    else pure (1/10)
  let ath ← if jsonContains config "angleThreshold" then
      jsonGetFloat (jsonField config "angleThreshold")
    else pure 0
  let inord ← if jsonContains config "inOrder" then jsonGetBool (jsonField config "inOrder")
    else pure false
  let nc ← if jsonContains config "ncond" then jsonGetStr (jsonField config "ncond")
    else pure ""
  let trn ← if jsonContains config "turn" then jsonGetInt (jsonField config "turn")
    else pure 0
  let regen ← if jsonContains config "regenInterval" then
      jsonGetFloat (jsonField config "regenInterval")
    else pure 60
  let extv ← if jsonContains config "ext" then jsonGetStr (jsonField config "ext")
    else pure ""
  return some {
    event_setting_id := sid
    event_setting_name := sname
    event_type := etype
    parent_id := pid
    points := pts
    target := { labels := labels }
    timeout := tmo
    detection_point := dp
    direction := dir
    keypoints := kps
    warning_distance := wd
    angle_threshold := ath
    in_order := inord
    ncond := nc
    turn := trn
    regen_interval := regen
    ext := extv }

/-- The `configs` loop of `ParseSettings`: settings are inserted one by one
into the (already cleared) map, so a thrown conversion leaves the entries
parsed so far in place and reports the error. -/
def parseConfigs : List Json → List (String × EventSetting) →
    List (String × EventSetting) × Option String
  | [], acc => (acc, none)
  | c :: rest, acc =>
    match parseConfigEntry c with
    | .error e => (acc, some e)
    | .ok none => parseConfigs rest acc
    | .ok (some s) => parseConfigs rest (insertKV acc s.event_setting_id s)

/-- `EventCompositor::ParseSettings` applied to an already-lexed JSON tree:
rejects a missing or non-array `configs`, then folds the entries. -/
def parseSettingsJ (j : Json) : List (String × EventSetting) × Option String :=
  if jsonContains j "configs" ∧ jsonIsArr (jsonField j "configs") then
    parseConfigs (jsonItems (jsonField j "configs")) []
  else ([], some "Invalid settings: missing configs array")

/-- `EventCompositor::BuildEventTree`: every setting with a non-empty
`parent_id` whose parent exists appends its id to the parent entry. -/
def buildEventTree (l : List (String × EventSetting)) : List (String × EventSetting) :=
  l.foldl
    (fun acc p =>
      if p.2.parent_id ≠ "" ∧ containsKey acc p.2.parent_id then
        pushChild acc p.2.parent_id p.1
      else acc)
    l

/-- `EventCompositor::FindTerminalEvents`: settings without children whose
type is neither Filter nor HM. -/
def findTerminalEvents (l : List (String × EventSetting)) : List String :=
  (l.filter (fun p =>
    p.2.children.isEmpty ∧ p.2.event_type ≠ .filterT ∧ p.2.event_type ≠ .hm)).map (·.1)

/-- Compositor state: the settings map plus the cached terminal list. -/
structure CompositorState where
  settings : List (String × EventSetting) := []
  terminal_events : List String := []
deriving DecidableEq

/-- `EventCompositor::UpdateSettings`.  The input is the result of
`json::parse` on the settings text: `none` when the text is malformed (the
parse throws before any entry is seen).  Prior state is cleared first; on a
parse error the error is returned with whatever the parse loop had inserted
(nothing for malformed text or a missing `configs`). -/
def updateSettings (_st : CompositorState) (input : Option Json) :
    CompositorState × Except String (List String) :=
  match input with
  | none => (⟨[], []⟩, .error "JSON parse error")
  | some j =>
    match parseSettingsJ j with
    | (entries, some e) => (⟨entries, []⟩, .error e)
    | (entries, none) =>
      let entries2 := buildEventTree entries
      let terms := findTerminalEvents entries2
      (⟨entries2, terms⟩, .ok terms)

/-- `EventCompositor::GetSettingCount`. -/
def getSettingCount (st : CompositorState) : ℕ :=
  st.settings.length

/-- `EventCompositor::MatchesTarget`: an empty label list matches everything;
otherwise the detection label must equal some target label after lowercasing
both sides. -/
def matchesTarget (det : Detection) (target : TargetFilter) : Bool :=
  if target.labels.isEmpty then true
  else
    let det_label := lowerStr det.class_name
    target.labels.any (fun l => det_label = lowerStr l)

/-- `EventCompositor::GetDetectionPoint`: anchor position on the bbox,
normalized by the frame dimensions. -/
def getDetectionPoint (det : Detection) (dp : DetectionPoint)
    (frame_width frame_height : ℤ) : Point2D :=
  let x : ℚ := det.bbox.x
  let y : ℚ := det.bbox.y
  let w : ℚ := det.bbox.width
  let h : ℚ := det.bbox.height
  let p : Point2D :=
    match dp with
    | .leftTop => ⟨x, y⟩
    | .centerTop => ⟨x + w / 2, y⟩
    | .rightTop => ⟨x + w, y⟩
    | .leftCenter => ⟨x, y + h / 2⟩
    | .center => ⟨x + w / 2, y + h / 2⟩
    | .rightCenter => ⟨x + w, y + h / 2⟩
    | .leftBottom => ⟨x, y + h⟩
    | .centerBottom => ⟨x + w / 2, y + h⟩
    | .rightBottom => ⟨x + w, y + h⟩
  ⟨p.x / (frame_width : ℚ), p.y / (frame_height : ℚ)⟩

/-- `EventCompositor::IsPointInPolygon`, the ray-casting loop with `j`
trailing one step behind `i`. -/
def isPointInPolygon (point : Point2D) (polygon : List Point2D) : Bool :=
  let n := polygon.length
  (List.range n).foldl
    (fun inside i =>
      let pi := polygon.getD i {}
      let pj := polygon.getD ((i + n - 1) % n) {}
      if (decide (pi.y > point.y) != decide (pj.y > point.y)) &&
         decide (point.x < (pj.x - pi.x) * (point.y - pi.y) / (pj.y - pi.y) + pi.x) then
        !inside
      else inside)
    false

/-- `EventCompositor::CheckROIEvent`: target match, at least 3 polygon
points, then containment of the anchor point. -/
def checkROIEvent (setting : EventSetting) (det : Detection)
    (frame_width frame_height : ℤ) : Bool :=
  if ¬ matchesTarget det setting.target then false
  else if setting.points.length < 3 then false
  else isPointInPolygon (getDetectionPoint det setting.detection_point frame_width frame_height)
    setting.points

/-- The per-setting `switch` of `CheckEvents`: only ROI settings can match
(Line and composite kinds are unimplemented stubs). -/
def eventMatched (setting : EventSetting) (det : Detection)
    (frame_width frame_height : ℤ) : Bool :=
  match setting.event_type with
  | .roi => checkROIEvent setting det frame_width frame_height
  | _ => false

/-- The inner settings loop of `CheckEvents` for one detection: every
matching setting appends its id to the detection. -/
def checkEventsDet (settings : List (String × EventSetting))
    (frame_width frame_height : ℤ) (det : Detection) : Detection :=
  settings.foldl
    (fun d p =>
      if eventMatched p.2 d frame_width frame_height then
        { d with event_setting_ids := d.event_setting_ids ++ [p.1] }
      else d)
    det

/-- `EventCompositor::CheckEvents`: early-outs on empty settings or
detections, otherwise tags every detection. -/
def checkEvents (settings : List (String × EventSetting)) (detections : List Detection)
    (frame_width frame_height : ℤ) : List Detection :=
  if settings.isEmpty ∨ detections.isEmpty then detections
  else detections.map (checkEventsDet settings frame_width frame_height)

/-! Angle-violation check (`EventCompositor::CheckAngleViolationEvent`).
The C++ computes with machine floats through `sqrt` and `acos`; the exact
counterpart lives in the real numbers, so these definitions are
noncomputable. -/

/-- Angle in degrees between two vectors: `acos` of the clamped cosine,
scaled from radians, exactly as lines 650 to 669 of the source compute it. -/
noncomputable def angleDegOf (kp_dx kp_dy line_dx line_dy : ℝ) : ℝ :=
  let dot := kp_dx * line_dx + kp_dy * line_dy
  let kp_len := Real.sqrt (kp_dx * kp_dx + kp_dy * kp_dy)
  let line_len := Real.sqrt (line_dx * line_dx + line_dy * line_dy)
  let cos_angle := dot / (kp_len * line_len)
  let clamped := max (-1) (min 1 cos_angle)
  Real.arccos clamped * 180 / Real.pi

open scoped Classical in
/-- The always-acute fold: an angle above 90 degrees is reflected, lines
671 to 674 of the source. -/
noncomputable def foldedAngleDeg (kp_dx kp_dy line_dx line_dy : ℝ) : ℝ :=
  let a := angleDegOf kp_dx kp_dy line_dx line_dy
  if a > 90 then 180 - a else a

/-- The keypoint vector `kp2 - kp1` of a detection (indices 1 and 2). -/
def kpVec (det : Detection) : ℚ × ℚ :=
  let kp1 := det.keypoints.getD 1 {}
  let kp2 := det.keypoints.getD 2 {}
  (kp2.x - kp1.x, kp2.y - kp1.y)

/-- The line vector `B - A` of a setting (points 0 and 1). -/
def lineVec (setting : EventSetting) : ℚ × ℚ :=
  let a := setting.points.getD 0 {}
  let b := setting.points.getD 1 {}
  (b.x - a.x, b.y - a.y)

/-- Length of the keypoint vector, the `kp_len` local of the source. -/
noncomputable def kpLenR (det : Detection) : ℝ :=
  Real.sqrt (((kpVec det).1 : ℝ) * ((kpVec det).1 : ℝ) +
    ((kpVec det).2 : ℝ) * ((kpVec det).2 : ℝ))

/-- Length of the line vector, the `line_len` local of the source. -/
noncomputable def lineLenR (setting : EventSetting) : ℝ :=
  Real.sqrt (((lineVec setting).1 : ℝ) * ((lineVec setting).1 : ℝ) +
    ((lineVec setting).2 : ℝ) * ((lineVec setting).2 : ℝ))

open scoped Classical in
/-- Status 0 (SAFE) or 2 (VIOLATION) of `EventCompositor::CheckAngleViolationEvent`
for one detection.  The frame dimensions are parameters of
the C++ function but are not read by its body. -/
noncomputable def checkAngleViolationEvent (setting : EventSetting) (det : Detection)
    (_frame_width _frame_height : ℤ) : ℤ :=
  if ¬ matchesTarget det setting.target then 0
  else if setting.points.length < 2 then 0
  else if det.keypoints.length < 3 then 0
  else
    let kp1 := det.keypoints.getD 1 {}
    let kp2 := det.keypoints.getD 2 {}
    if kp1.visible < 3/10 ∨ kp2.visible < 3/10 then 0
    else
      let kp_dx : ℝ := ((kpVec det).1 : ℚ)
      let kp_dy : ℝ := ((kpVec det).2 : ℚ)
      let line_dx : ℝ := ((lineVec setting).1 : ℚ)
      let line_dy : ℝ := ((lineVec setting).2 : ℚ)
      if kpLenR det < 1/1000000 ∨ lineLenR setting < 1/1000000 then 0
      else if foldedAngleDeg kp_dx kp_dy line_dx line_dy > (setting.angle_threshold : ℝ) then 2
      else 0

/-! Inference output decoding (`src/hailo_inference.cpp`). -/

/-- Letterbox bookkeeping, `HailoInference::LetterboxInfo`. -/
structure LetterboxInfo where
  scale : ℚ := 1
  pad_x : ℤ := 0
  pad_y : ℤ := 0
  new_w : ℤ := 0
  new_h : ℤ := 0

/-- The engine fields that `ParseNmsOutput` reads, with the defaults of
`hailo_inference.h`. -/
structure NmsModelInfo where
  num_classes : ℕ := 80
  max_bboxes_per_class : ℕ := 100
  task : String := "det"
  num_keypoints : ℕ := 0
  labels : List String := []
  input_width : ℤ := 640
  input_height : ℤ := 640

/-- The built-in COCO fallback label table. -/
def cocoLabels : List String :=
  ["person", "bicycle", "car", "motorcycle", "airplane", "bus", "train", "truck", "boat",
   "traffic light", "fire hydrant", "stop sign", "parking meter", "bench", "bird", "cat",
   "dog", "horse", "sheep", "cow", "elephant", "bear", "zebra", "giraffe", "backpack",
   "umbrella", "handbag", "tie", "suitcase", "frisbee", "skis", "snowboard", "sports ball",
   "kite", "baseball bat", "baseball glove", "skateboard", "surfboard", "tennis racket",
   "bottle", "wine glass", "cup", "fork", "knife", "spoon", "bowl", "banana", "apple",
   "sandwich", "orange", "broccoli", "carrot", "hot dog", "pizza", "donut", "cake", "chair",
   "couch", "potted plant", "bed", "dining table", "toilet", "tv", "laptop", "mouse",
   "remote", "keyboard", "cell phone", "microwave", "oven", "toaster", "sink", "refrigerator",
   "book", "clock", "vase", "scissors", "teddy bear", "hair drier", "toothbrush"]

/-- Class-name selection shared by both decoders: configured labels first,
then the COCO table, then the `object` fallback. -/
def classNameFor (labels : List String) (cls : ℕ) : String :=
  if ¬ labels.isEmpty ∧ cls < labels.length then labels.getD cls ""
  else if cls < 80 then cocoLabels.getD cls ""
  else "object"

/-- The keypoint loop of `ParseNmsOutput` (lines 580 to 602): each `(kx, ky,
kconf)` triple is scaled to model pixels, unpadded, and normalized by the
frame size with no clamping.  First argument of the recursion is the
keypoint index, second the remaining iteration count. -/
def nmsKpLoop (info : NmsModelInfo) (lb : LetterboxInfo) (data : List ℚ)
    (frame_width frame_height : ℤ) (det_offset : ℕ) : ℕ → ℕ → List Keypoint
  | _, 0 => []
  | k, fuel + 1 =>
    let kp_offset := det_offset + 5 + k * 3
    if kp_offset + 3 > data.length then []
    else
      let kp_x := data.getD kp_offset 0
      let kp_y := data.getD (kp_offset + 1) 0
      let kp_conf := data.getD (kp_offset + 2) 0
      let kp_x_model := kp_x * (info.input_width : ℚ)
      let kp_y_model := kp_y * (info.input_height : ℚ)
      let kp_x_orig := (kp_x_model - (lb.pad_x : ℚ)) / lb.scale
      let kp_y_orig := (kp_y_model - (lb.pad_y : ℚ)) / lb.scale
      ⟨kp_x_orig / (frame_width : ℚ), kp_y_orig / (frame_height : ℚ), kp_conf⟩ ::
        nmsKpLoop info lb data frame_width frame_height det_offset (k + 1) fuel

/-- One NMS slot (lines 533 to 619): score filter, unletterbox, truncate to
int, clamp `x`/`y` below by 0 and `width`/`height` by the remaining frame,
decode keypoints for pose models, and keep the detection only if both sides
are positive. -/
def nmsSlotDets (info : NmsModelInfo) (lb : LetterboxInfo) (thr : ℚ) (data : List ℚ)
    (frame_width frame_height : ℤ) (det_params cls i : ℕ) : List Detection :=
  let det_offset := (cls * info.max_bboxes_per_class + i) * det_params
  let y_min := data.getD det_offset 0
  let x_min := data.getD (det_offset + 1) 0
  let y_max := data.getD (det_offset + 2) 0
  let x_max := data.getD (det_offset + 3) 0
  let score := data.getD (det_offset + 4) 0
  if score < thr then []
  else
    let x1_model := x_min * (info.input_width : ℚ)
    let y1_model := y_min * (info.input_height : ℚ)
    let x2_model := x_max * (info.input_width : ℚ)
    let y2_model := y_max * (info.input_height : ℚ)
    let x1_orig := (x1_model - (lb.pad_x : ℚ)) / lb.scale
    let y1_orig := (y1_model - (lb.pad_y : ℚ)) / lb.scale
    let x2_orig := (x2_model - (lb.pad_x : ℚ)) / lb.scale
    let y2_orig := (y2_model - (lb.pad_y : ℚ)) / lb.scale
    let b_x := max 0 (ratTrunc x1_orig)
    let b_y := max 0 (ratTrunc y1_orig)
    let b_w := min (ratTrunc (x2_orig - x1_orig)) (frame_width - b_x)
    let b_h := min (ratTrunc (y2_orig - y1_orig)) (frame_height - b_y)
    let kpts :=
      if info.task = "pose" ∧ 0 < info.num_keypoints then
        nmsKpLoop info lb data frame_width frame_height det_offset 0 info.num_keypoints
      else []
    let det : Detection :=
      { class_name := classNameFor info.labels cls
        class_id := (cls : ℤ)
        confidence := score
        bbox := ⟨b_x, b_y, b_w, b_h⟩
        keypoints := kpts }
    if 0 < b_w ∧ 0 < b_h then [det] else []

/-- The inner slot loop (index `i`) of `ParseNmsOutput` with its `break`
when the slot header would run past the buffer. -/
def nmsRowLoop (info : NmsModelInfo) (lb : LetterboxInfo) (thr : ℚ) (data : List ℚ)
    (frame_width frame_height : ℤ) (det_params cls : ℕ) : ℕ → ℕ → List Detection
  | _, 0 => []
  | i, fuel + 1 =>
    if (cls * info.max_bboxes_per_class + i) * det_params + 5 > data.length then []
    else
      nmsSlotDets info lb thr data frame_width frame_height det_params cls i ++
        nmsRowLoop info lb thr data frame_width frame_height det_params cls (i + 1) fuel

/-- `HailoInference::ParseNmsOutput` on the float view of the output buffer:
derives the per-slot stride from the buffer size when it disagrees with the
documented `5 + 3 * num_keypoints`, then walks all `class × slot` cells. -/
def parseNmsOutput (info : NmsModelInfo) (is_nms_output : Bool) (data : List ℚ)
    (confidence_threshold : ℚ) (frame_width frame_height : ℤ)
    (lb : LetterboxInfo) : List Detection :=
  if ¬ is_nms_output then []
  else
    let num_floats := data.length
    let total_slots := info.num_classes * info.max_bboxes_per_class
    let actual_det_params := if 0 < total_slots then num_floats / total_slots else 0
    let keypoint_params := if info.task = "pose" then info.num_keypoints * 3 else 0
    let expected_det_params := 5 + keypoint_params
    let det_params :=
      if 0 < actual_det_params ∧ actual_det_params ≠ expected_det_params then
        actual_det_params
      else expected_det_params
    (List.range info.num_classes).flatMap (fun cls =>
      nmsRowLoop info lb confidence_threshold data frame_width frame_height det_params cls 0
        info.max_bboxes_per_class)

/-- One pre-NMS candidate of the raw-YOLO decoder: model-input-space box,
score, class and keypoint triples, as collected by the per-scale grid loops
before `ApplyNMS` selects survivors. -/
structure RawCandidate where
  x1 : ℚ := 0
  y1 : ℚ := 0
  x2 : ℚ := 0
  y2 : ℚ := 0
  score : ℚ := 0
  class_id : ℕ := 0
  kpts : List (ℚ × ℚ × ℚ) := []

/-- The final conversion stage of `HailoInference::ParseRawYoloOutput`
(lines 920 to 993) for one NMS-surviving candidate: unletterbox, clamp every
coordinate into `[0, frame]` before taking width and height, clip keypoints
into `[0, frame - 1]` and normalize them, and keep the detection only if
both sides are positive. -/
def rawYoloEmitOne (labels : List String) (lb : LetterboxInfo)
    (frame_width frame_height : ℤ) (c : RawCandidate) : List Detection :=
  let x1_orig := (c.x1 - (lb.pad_x : ℚ)) / lb.scale
  let y1_orig := (c.y1 - (lb.pad_y : ℚ)) / lb.scale
  let x2_orig := (c.x2 - (lb.pad_x : ℚ)) / lb.scale
  let y2_orig := (c.y2 - (lb.pad_y : ℚ)) / lb.scale
  let x1_clamped := max 0 (min (frame_width : ℚ) x1_orig)
  let y1_clamped := max 0 (min (frame_height : ℚ) y1_orig)
  let x2_clamped := max 0 (min (frame_width : ℚ) x2_orig)
  let y2_clamped := max 0 (min (frame_height : ℚ) y2_orig)
  let kpts := c.kpts.map (fun t =>
    let kp_x_orig := (t.1 - (lb.pad_x : ℚ)) / lb.scale
    let kp_y_orig := (t.2.1 - (lb.pad_y : ℚ)) / lb.scale
    let kx := max 0 (min kp_x_orig ((frame_width : ℚ) - 1))
    let ky := max 0 (min kp_y_orig ((frame_height : ℚ) - 1))
    (⟨kx / (frame_width : ℚ), ky / (frame_height : ℚ), t.2.2⟩ : Keypoint))
  let det : Detection :=
    { class_name := classNameFor labels c.class_id
      class_id := (c.class_id : ℤ)
      confidence := c.score
      bbox := ⟨ratTrunc x1_clamped, ratTrunc y1_clamped,
               ratTrunc (x2_clamped - x1_clamped), ratTrunc (y2_clamped - y1_clamped)⟩
      keypoints := kpts }
  if 0 < det.bbox.width ∧ 0 < det.bbox.height then [det] else []

/-- The conversion loop over all NMS survivors. -/
def rawYoloEmit (labels : List String) (lb : LetterboxInfo)
    (frame_width frame_height : ℤ) (cands : List RawCandidate) : List Detection :=
  cands.flatMap (rawYoloEmitOne labels lb frame_width frame_height)

/-! Engine initialization and batch manager (`src/hailo_inference.cpp`,
claims about `Initialize` and `GetBatchManager`). -/

/-- The first-input shape of a HEF, as `get_input_vstream_infos` reports. -/
structure HefInput where
  height : ℤ := 0
  width : ℤ := 0

/-- The model-file facts `Initialize` may consult: input shapes and the
batch size the file declares. -/
structure HefInfo where
  inputs : List HefInput := []
  declared_batch : ℤ := 1

/-- The engine fields captured by `Initialize`, with the member defaults of
`hailo_inference.h`. -/
structure EngineState where
  input_width : ℤ := 640
  input_height : ℤ := 640
  batch_size : ℤ := 1

/-- The dimension-capture step of `HailoInference::Initialize` (lines 176 to
187): on a non-empty input list the shape is copied and `batch_size_` is set
to 1 for stable operation, whatever the file declares; otherwise the member
defaults stand. -/
def initCapture (hef : HefInfo) : EngineState :=
  let s : EngineState := {}
  match hef.inputs with
  | [] => s
  | i :: _ => { s with input_height := i.height, input_width := i.width, batch_size := 1 }

/-- `HailoInference::GetBatchManager`: null for `batch_size <= 1`; otherwise
a manager is created only when the engine is present in the static instance
registry. -/
def getBatchManager (s : EngineState) (registered : Bool) : Option Unit :=
  if s.batch_size ≤ 1 then none
  else if registered then some () else none

/-! Stream manager registry (`src/stream_manager.cpp`).  The processor type
is abstract; creation, start and update outcomes enter as parameters. -/

/-- `kMaxStreams` of `common.h`. -/
def kMaxStreams : ℕ := 4

/-- `StreamManager::AddStream` on the `streams_` map: duplicate id, capacity,
failed creation and failed start all return the error without touching the
map; only a full success stores the processor. -/
def smAddStream {P : Type} (streams : List (String × P)) (stream_id : String)
    (create : Except String P) (start : P → Except String Unit) :
    List (String × P) × Except String Unit :=
  if containsKey streams stream_id then
    (streams, .error ("Stream " ++ stream_id ++ " already exists"))
  else if kMaxStreams ≤ streams.length then
    (streams, .error "Maximum number of streams (4) reached")
  else
    match create with
    | .error e => (streams, .error ("Failed to create stream: " ++ e))
    | .ok p =>
      match start p with
      | .error e => (streams, .error e)
      | .ok _ => (insertKV streams stream_id p, .ok ())

/-- `StreamManager::RemoveStream`: unknown id is an error with the map
untouched; otherwise the entry is stopped and erased. -/
def smRemoveStream {P : Type} (streams : List (String × P)) (stream_id : String) :
    List (String × P) × Except String Unit :=
  match lookupKey streams stream_id with
  | none => (streams, .error ("Stream " ++ stream_id ++ " not found"))
  | some _ => (streams.eraseP (fun p => p.1 == stream_id), .ok ())

/-- `StreamManager::UpdateStream`: unknown id is an error with the map
untouched; otherwise the found processor is updated in place and the update
outcome is forwarded. -/
def smUpdateStream {P : Type} (streams : List (String × P)) (stream_id : String)
    (upd : P → Except String P) : List (String × P) × Except String Unit :=
  match lookupKey streams stream_id with
  | none => (streams, .error ("Stream " ++ stream_id ++ " not found"))
  | some p =>
    match upd p with
    | .error e => (streams, .error e)
    | .ok p2 => (streams.map (fun q => if q.1 == stream_id then (q.1, p2) else q), .ok ())

/-! Publisher serialization (`src/nats_publisher.cpp`). -/

/-- Per-event status, `struct EventStatus` of `common.h`. -/
structure EventStatus where
  status : ℤ := 0
  labels : List String := []

/-- Per-frame envelope, `struct DetectionEvent` of `common.h`. -/
structure DetectionEvent where
  stream_id : String := ""
  timestamp : ℤ := 0
  frame_number : ℕ := 0
  fps : ℚ := 0
  width : ℤ := 0
  height : ℤ := 0
  detections : List Detection := []
  events : List (String × EventStatus) := []
  image_data : List ℕ := []

/-- The base64 alphabet of the publisher. -/
def kBase64Table : List Char :=
  "ABCDEFGHIJKLMNOPQRSTUVWXYZabcdefghijklmnopqrstuvwxyz0123456789+/".data

/-- The inner `while (valb >= 0)` of `Base64Encode`, emitting 6-bit groups.
`valb` grows by 8 per input byte and shrinks by 6 per emitted character, so
it never exceeds 9 and the loop runs at most twice; the fuel bounds it. -/
def b64Flush (val : ℕ) : ℤ → List Char → ℕ → List Char × ℤ
  | valb, acc, 0 => (acc, valb)
  | valb, acc, fuel + 1 =>
    if 0 ≤ valb then
      b64Flush val (valb - 6) (acc ++ [kBase64Table.getD ((val >>> valb.toNat) % 64) 'A']) fuel
    else (acc, valb)

/-- The byte loop of `Base64Encode`; `val` is a `uint32_t`, kept mod 2^32. -/
def b64Bytes : List ℕ → ℕ → ℤ → List Char → List Char × ℕ × ℤ
  | [], val, valb, acc => (acc, val, valb)
  | c :: rest, val, valb, acc =>
    let val2 := (val * 256 + c) % 4294967296
    let (acc2, valb2) := b64Flush val2 (valb + 8) acc 8
    b64Bytes rest val2 valb2 acc2

/-- The trailing `=` padding loop of `Base64Encode` (at most 3 pushes). -/
def b64Pad : List Char → ℕ → List Char
  | acc, 0 => acc
  | acc, fuel + 1 => if acc.length % 4 ≠ 0 then b64Pad (acc ++ ['=']) fuel else acc

/-- `Base64Encode` of the publisher translation unit. -/
def base64Encode (data : List ℕ) : String :=
  let (acc, val, valb) := b64Bytes data 0 (-6) []
  let acc2 :=
    if valb > -6 then
      acc ++ [kBase64Table.getD ((((val * 256) % 4294967296) >>> (valb + 8).toNat) % 64) 'A']
    else acc
  ⟨b64Pad acc2 3⟩

/-- One detection object of `NatsPublisher::SerializeToJson` (lines 474 to
501).  The source reads `det.event_setting_id`, a member `Detection` does
not declare; the only event member of `Detection` is the vector
`event_setting_ids`, so the `event` field carries that vector (an array of
the matched ids), or null when it is empty.  `keypoints` is present only for
pose detections. -/
def serializeDetection (det : Detection) : Json :=
  .obj
    ([("class", .str det.class_name),
      ("class_id", .num (det.class_id : ℚ)),
      ("confidence", .num det.confidence),
      ("bbox", .obj
        [("x", .num (det.bbox.x : ℚ)), ("y", .num (det.bbox.y : ℚ)),
         ("width", .num (det.bbox.width : ℚ)), ("height", .num (det.bbox.height : ℚ))]),
      ("event",
        if det.event_setting_ids.isEmpty then Json.null
        else .arr (det.event_setting_ids.map .str))] ++
     (if det.keypoints.isEmpty then []
      else [("keypoints",
        .arr (det.keypoints.map (fun k => .arr [.num k.x, .num k.y, .num k.visible])))]))

/-- `NatsPublisher::SerializeToJson`: the envelope carries the scalar header
fields, the detections array and, when image bytes exist, their base64; the
`events` map of the `DetectionEvent` is not serialized by this function. -/
def serializeToJson (event : DetectionEvent) : Json :=
  .obj
    ([("stream_id", .str event.stream_id),
      ("timestamp", .num (event.timestamp : ℚ)),
      ("frame_number", .num (event.frame_number : ℚ)),
      ("fps", .num event.fps),
      ("width", .num (event.width : ℚ)),
      ("height", .num (event.height : ℚ)),
      ("detections", .arr (event.detections.map serializeDetection))] ++
     (if event.image_data.isEmpty then []
      else [("image", .str (base64Encode event.image_data))]))

/-- The bbox-containment invariant of claim C1, for one detection against
the frame `(W, H)`. -/
def bboxWithinFrame (det : Detection) (frame_width frame_height : ℤ) : Prop :=
  0 ≤ det.bbox.x ∧ det.bbox.x + det.bbox.width ≤ frame_width ∧
  0 ≤ det.bbox.y ∧ det.bbox.y + det.bbox.height ≤ frame_height

/-! Theorems.  Helper lemmas come first, then one theorem per claim (with a
witness or counterexample where required). -/

lemma lookupKey_cons {β : Type} (p : String × β) (rest : List (String × β)) (k : String) :
    lookupKey (p :: rest) k = if p.1 = k then some p.2 else lookupKey rest k := by
  by_cases h : p.1 = k <;> simp [lookupKey, List.find?_cons, h]

lemma lookupKey_eq_some_of_mem {β : Type} {k : String} {v : β} :
    ∀ {l : List (String × β)}, (l.map Prod.fst).Nodup → (k, v) ∈ l →
      lookupKey l k = some v := by
  intro l
  induction l with
  | nil => intro _ hmem; cases hmem
  | cons p rest ih =>
    intro hnd hmem
    rw [List.map_cons, List.nodup_cons] at hnd
    rw [lookupKey_cons]
    rcases List.mem_cons.mp hmem with h | h
    · rw [← h]
      simp
    · have hne : p.1 ≠ k := by
        intro he
        exact hnd.1 (he ▸ List.mem_map.mpr ⟨(k, v), h, rfl⟩)
      rw [if_neg hne]
      exact ih hnd.2 h

lemma mem_of_lookupKey_eq_some {β : Type} {k : String} {v : β} :
    ∀ {l : List (String × β)}, lookupKey l k = some v → (k, v) ∈ l := by
  intro l
  induction l with
  | nil => intro h; simp [lookupKey] at h
  | cons p rest ih =>
    intro h
    rw [lookupKey_cons] at h
    by_cases hk : p.1 = k
    · rw [if_pos hk] at h
      simp only [Option.some.injEq] at h
      exact List.mem_cons.mpr (Or.inl (by obtain ⟨p1, p2⟩ := p; simp_all))
    · rw [if_neg hk] at h
      exact List.mem_cons.mpr (Or.inr (ih h))

lemma keys_pushChild (l : List (String × EventSetting)) (parent child : String) :
    (pushChild l parent child).map Prod.fst = l.map Prod.fst := by
  rw [pushChild, List.map_map]
  apply List.map_congr_left
  intro p _
  by_cases h : p.1 = parent <;> simp [h]

lemma keys_buildEventTreeAux :
    ∀ (l0 acc : List (String × EventSetting)),
      ((l0.foldl (fun acc p =>
        if p.2.parent_id ≠ "" ∧ containsKey acc p.2.parent_id then
          pushChild acc p.2.parent_id p.1
        else acc) acc).map Prod.fst) = acc.map Prod.fst := by
  intro l0
  induction l0 with
  | nil => intro acc; rfl
  | cons p rest ih =>
    intro acc
    rw [List.foldl_cons, ih]
    by_cases h : p.2.parent_id ≠ "" ∧ containsKey acc p.2.parent_id
    · rw [if_pos h, keys_pushChild]
    · rw [if_neg h]

lemma keys_buildEventTree (l : List (String × EventSetting)) :
    (buildEventTree l).map Prod.fst = l.map Prod.fst := by
  rw [buildEventTree]
  exact keys_buildEventTreeAux l l

lemma nodup_keys_insertKV {β : Type} (l : List (String × β)) (k : String) (v : β)
    (h : (l.map Prod.fst).Nodup) : ((insertKV l k v).map Prod.fst).Nodup := by
  by_cases hc : containsKey l k = true
  · have heq : (insertKV l k v).map Prod.fst = l.map Prod.fst := by
      simp only [insertKV, if_pos hc, List.map_map]
      apply List.map_congr_left
      intro p _
      by_cases hp : p.1 = k
      · simp [hp]
      · simp [hp]
    rw [heq]; exact h
  · have hnotin : k ∉ l.map Prod.fst := by
      intro hk
      rcases List.mem_map.mp hk with ⟨p, hp, hfst⟩
      refine absurd ?_ hc
      simp only [containsKey, List.any_eq_true]
      exact ⟨p, hp, by simp [hfst]⟩
    have hc2 : ¬ (containsKey l k = true) := hc
    simp only [insertKV, if_neg hc2, List.map_append, List.map_cons, List.map_nil]
    simp [List.nodup_append, h, hnotin]

lemma nodup_keys_parseConfigs :
    ∀ (cs : List Json) (acc : List (String × EventSetting)),
      (acc.map Prod.fst).Nodup → (((parseConfigs cs acc).1).map Prod.fst).Nodup := by
  intro cs
  induction cs with
  | nil => intro acc h; exact h
  | cons c rest ih =>
    intro acc h
    simp only [parseConfigs]
    rcases hpc : parseConfigEntry c with e | o
    · exact h
    · cases o with
      | none => exact ih acc h
      | some s => exact ih _ (nodup_keys_insertKV _ _ _ h)

lemma mem_findTerminalEvents (l : List (String × EventSetting)) (id : String) :
    id ∈ findTerminalEvents l ↔
      ∃ s, (id, s) ∈ l ∧ s.children = [] ∧
        s.event_type ≠ .filterT ∧ s.event_type ≠ .hm := by
  simp only [findTerminalEvents, List.mem_map, List.mem_filter]
  constructor
  · rintro ⟨⟨a, b⟩, ⟨hmem, hpred⟩, hfst⟩
    simp only [decide_eq_true_eq, List.isEmpty_iff] at hpred
    simp only at hfst
    subst hfst
    exact ⟨b, hmem, hpred.1, hpred.2.1, hpred.2.2⟩
  · rintro ⟨s, hmem, h1, h2, h3⟩
    exact ⟨(id, s), ⟨hmem, by simp [h1, h2, h3]⟩, rfl⟩

/-- C4: after a successful `UpdateSettings`, the returned terminal list
holds exactly the ids of the parsed settings whose derived `children` list
is empty and whose type is neither Filter nor HM. -/
theorem c4_terminal_event_characterization (st st2 : CompositorState) (input : Option Json)
    (terms : List String) (h : updateSettings st input = (st2, .ok terms)) (id : String) :
    id ∈ terms ↔
      ∃ s, lookupKey st2.settings id = some s ∧ s.children = [] ∧
        s.event_type ≠ .filterT ∧ s.event_type ≠ .hm := by
  cases input with
  | none => simp [updateSettings] at h
  | some j =>
    simp only [updateSettings] at h
    rcases hp : parseSettingsJ j with ⟨entries, err⟩
    rw [hp] at h
    cases err with
    | some e0 => simp at h
    | none =>
      simp only at h
      injection h with h1 h2
      injection h2 with h3
      have hterms : terms = findTerminalEvents (buildEventTree entries) := h3.symm
      have hsettings : st2.settings = buildEventTree entries := by rw [← h1]
      have hnodup : ((buildEventTree entries).map Prod.fst).Nodup := by
        rw [keys_buildEventTree]
        simp only [parseSettingsJ] at hp
        split at hp
        · rcases hpc : parseConfigs (jsonItems (jsonField j "configs")) [] with ⟨ent2, err2⟩
          rw [hpc] at hp
          injection hp with hp1 hp2
          rw [← hp1]
          have := nodup_keys_parseConfigs (jsonItems (jsonField j "configs")) []
            (by simp)
          rw [hpc] at this
          exact this
        · injection hp with hp1 hp2
          rw [← hp1]
          simp
      rw [hterms, hsettings, mem_findTerminalEvents]
      constructor
      · rintro ⟨s, hmem, hprops⟩
        exact ⟨s, lookupKey_eq_some_of_mem hnodup hmem, hprops⟩
      · rintro ⟨s, hlk, hprops⟩
        exact ⟨s, mem_of_lookupKey_eq_some hlk, hprops⟩

/-- C4 witness: a three-entry settings JSON whose only terminal is the Line
child (the parent gains a child; the Filter entry is excluded). -/
theorem c4_terminal_event_witness :
    "c" ∈ ["c"] ↔
      ∃ s, lookupKey (updateSettings ⟨[], []⟩ (some (.obj [("configs", .arr [
          .obj [("eventSettingId", .str "p"), ("eventType", .str "ROI")],
          .obj [("eventSettingId", .str "c"), ("eventType", .str "Line"),
                ("parentId", .str "p")],
          .obj [("eventSettingId", .str "f"), ("eventType", .str "Filter")]])]))).1.settings
          "c" = some s ∧
        s.children = [] ∧ s.event_type ≠ .filterT ∧ s.event_type ≠ .hm :=
  c4_terminal_event_characterization ⟨[], []⟩ _ (some (.obj [("configs", .arr [
      .obj [("eventSettingId", .str "p"), ("eventType", .str "ROI")],
      .obj [("eventSettingId", .str "c"), ("eventType", .str "Line"),
            ("parentId", .str "p")],
      .obj [("eventSettingId", .str "f"), ("eventType", .str "Filter")]])]))
    ["c"] (by rfl) "c"

/-- C6: the `ALL` string, the `[ALL]` array and the empty array all parse to
an empty target-label list, under which every detection matches; a non-empty
parsed label list matches a detection exactly when its class name equals one
of the labels after lowercasing both. -/
theorem c6_targets_all_equiv :
    (parseTargets (.str "ALL") = [] ∧ parseTargets (.arr [.str "ALL"]) = [] ∧
      parseTargets (.arr []) = [] ∧
      ∀ det : Detection,
        matchesTarget det { labels := parseTargets (.str "ALL") } = true ∧
        matchesTarget det { labels := parseTargets (.arr [.str "ALL"]) } = true ∧
        matchesTarget det { labels := parseTargets (.arr []) } = true) ∧
    (∀ (det : Detection) (labels : List String), labels ≠ [] →
      (matchesTarget det { labels := labels } = true ↔
        ∃ t ∈ labels, lowerStr det.class_name = lowerStr t)) := by
  constructor
  · exact ⟨rfl, rfl, rfl, fun det => ⟨rfl, rfl, rfl⟩⟩
  · intro det labels hne
    simp only [matchesTarget]
    rw [if_neg (by simpa [List.isEmpty_iff] using hne)]
    simp [List.any_eq_true]

/-- C6 witness: a concrete non-empty target list matched case-insensitively. -/
theorem c6_targets_witness :
    (["Person"] ≠ ([] : List String)) ∧
    (matchesTarget { class_name := "peRSon" } { labels := ["Person"] } = true ↔
      ∃ t ∈ ["Person"], lowerStr ({ class_name := "peRSon" } : Detection).class_name =
        lowerStr t) :=
  ⟨by decide, c6_targets_all_equiv.2 { class_name := "peRSon" } ["Person"] (by decide)⟩

lemma eventMatched_set_ids (s : EventSetting) (d : Detection) (l : List String) (w h : ℤ) :
    eventMatched s { d with event_setting_ids := l } w h = eventMatched s d w h := rfl

lemma foldl_checkEvents_ids (w h : ℤ) :
    ∀ (settings : List (String × EventSetting)) (d : Detection),
      (settings.foldl (fun d p =>
        if eventMatched p.2 d w h then
          { d with event_setting_ids := d.event_setting_ids ++ [p.1] }
        else d) d).event_setting_ids =
      d.event_setting_ids ++
        (settings.filter (fun p => eventMatched p.2 d w h)).map Prod.fst := by
  intro settings
  induction settings with
  | nil => intro d; simp
  | cons p rest ih =>
    intro d
    rw [List.foldl_cons]
    by_cases hm : eventMatched p.2 d w h = true
    · rw [if_pos hm, ih]
      have hfilt : rest.filter (fun q =>
          eventMatched q.2 { d with event_setting_ids := d.event_setting_ids ++ [p.1] } w h) =
          rest.filter (fun q => eventMatched q.2 d w h) := by
        apply List.filter_congr
        intro q _
        rw [eventMatched_set_ids]
      simp [hfilt, List.filter_cons, hm, List.append_assoc]
    · rw [if_neg hm, ih]
      have hf : (fun q : String × EventSetting => eventMatched q.2 d w h) p = false := by
        simpa using hm
      simp [List.filter_cons, hf]

lemma checkEventsDet_ids (settings : List (String × EventSetting)) (w h : ℤ) (d : Detection) :
    (checkEventsDet settings w h d).event_setting_ids =
      d.event_setting_ids ++
        (settings.filter (fun p => eventMatched p.2 d w h)).map Prod.fst :=
  foldl_checkEvents_ids w h settings d

lemma checkROIEvent_eq_true_iff (s : EventSetting) (det : Detection) (w h : ℤ) :
    checkROIEvent s det w h = true ↔
      (matchesTarget det s.target = true ∧ 3 ≤ s.points.length ∧
        isPointInPolygon (getDetectionPoint det s.detection_point w h) s.points = true) := by
  rw [checkROIEvent]
  by_cases h1 : matchesTarget det s.target = true
  · rw [if_neg (by simp [h1])]
    by_cases h2 : s.points.length < 3
    · rw [if_pos h2]
      simp [h1]
      omega
    · rw [if_neg h2]
      simp [h1]
      omega
  · rw [if_pos (by simp [h1])]
    simp [h1]

lemma eventMatched_of_roi (s : EventSetting) (det : Detection) (w h : ℤ)
    (hroi : s.event_type = .roi) :
    eventMatched s det w h = checkROIEvent s det w h := by
  rw [eventMatched, hroi]

/-- C5: for a fresh detection the tagging pass appends the id of an ROI
setting exactly when the detection class matches the target labels, the
polygon has at least three points, and the anchor point chosen by
`detection_point` and normalized to the frame lies inside the polygon under
ray casting; every matching ROI id is appended. -/
theorem c5_roi_union_membership (settings : List (String × EventSetting))
    (dets : List Detection) (w h : ℤ) (id : String) (s : EventSetting)
    (hnd : (settings.map Prod.fst).Nodup)
    (hmem : (id, s) ∈ settings) (hroi : s.event_type = .roi)
    (n : ℕ) (det : Detection) (hn : dets[n]? = some det)
    (hfresh : det.event_setting_ids = []) :
    ∃ det2, (checkEvents settings dets w h)[n]? = some det2 ∧
      (id ∈ det2.event_setting_ids ↔
        (matchesTarget det s.target = true ∧ 3 ≤ s.points.length ∧
          isPointInPolygon (getDetectionPoint det s.detection_point w h) s.points = true)) := by
  have hsne : ¬ (settings.isEmpty = true) := by
    rcases settings with _ | _
    · cases hmem
    · simp
  have hdne : ¬ (dets.isEmpty = true) := by
    rcases dets with _ | _
    · simp at hn
    · simp
  have hce : checkEvents settings dets w h = dets.map (checkEventsDet settings w h) := by
    rw [checkEvents, if_neg]
    rintro (hc | hc)
    · exact hsne hc
    · exact hdne hc
  refine ⟨checkEventsDet settings w h det, ?_, ?_⟩
  · rw [hce, List.getElem?_map, hn]
    rfl
  · rw [checkEventsDet_ids, hfresh, List.nil_append]
    rw [← checkROIEvent_eq_true_iff s det w h]
    constructor
    · intro hin
      rcases List.mem_map.mp hin with ⟨p, hpf, hfst⟩
      rcases List.mem_filter.mp hpf with ⟨hpmem, hpred⟩
      have hps : p.2 = s := by
        have e1 : lookupKey settings id = some s := lookupKey_eq_some_of_mem hnd hmem
        have e2 : lookupKey settings id = some p.2 := by
          apply lookupKey_eq_some_of_mem hnd
          rw [← hfst]
          simpa using hpmem
        rw [e1] at e2
        injection e2 with e3
        exact e3.symm
      rw [← hps, ← eventMatched_of_roi p.2 det w h (by rw [hps]; exact hroi)]
      exact hpred
    · intro hcond
      apply List.mem_map.mpr
      refine ⟨(id, s), List.mem_filter.mpr ⟨hmem, ?_⟩, rfl⟩
      rw [eventMatched_of_roi s det w h hroi]
      exact hcond

/-- C5 witness: scenario S1 of the spec, a person detection whose
center-bottom anchor falls inside a square ROI. -/
theorem c5_roi_witness :
    ∃ det2, (checkEvents
        [("r1", { event_setting_id := "r1", event_type := .roi,
                  points := [⟨1/10, 1/10⟩, ⟨9/10, 1/10⟩, ⟨9/10, 9/10⟩, ⟨1/10, 9/10⟩],
                  target := { labels := ["person"] } })]
        [{ class_name := "person", bbox := ⟨10, 10, 20, 30⟩ }] 100 100)[0]? = some det2 ∧
      ("r1" ∈ det2.event_setting_ids ↔
        (matchesTarget { class_name := "person", bbox := ⟨10, 10, 20, 30⟩ }
            { labels := ["person"] } = true ∧
          3 ≤ ([⟨1/10, 1/10⟩, ⟨9/10, 1/10⟩, ⟨9/10, 9/10⟩, ⟨1/10, 9/10⟩] :
            List Point2D).length ∧
          isPointInPolygon
            (getDetectionPoint { class_name := "person", bbox := ⟨10, 10, 20, 30⟩ }
              .centerBottom 100 100)
            [⟨1/10, 1/10⟩, ⟨9/10, 1/10⟩, ⟨9/10, 9/10⟩, ⟨1/10, 9/10⟩] = true)) :=
  c5_roi_union_membership
    [("r1", { event_setting_id := "r1", event_type := .roi,
              points := [⟨1/10, 1/10⟩, ⟨9/10, 1/10⟩, ⟨9/10, 9/10⟩, ⟨1/10, 9/10⟩],
              target := { labels := ["person"] } })]
    [{ class_name := "person", bbox := ⟨10, 10, 20, 30⟩ }] 100 100 "r1"
    { event_setting_id := "r1", event_type := .roi,
      points := [⟨1/10, 1/10⟩, ⟨9/10, 1/10⟩, ⟨9/10, 9/10⟩, ⟨1/10, 9/10⟩],
      target := { labels := ["person"] } }
    (by simp) (List.mem_cons_self _ _) rfl 0
    { class_name := "person", bbox := ⟨10, 10, 20, 30⟩ } rfl rfl

lemma ratTrunc_nonneg {q : ℚ} (h : 0 ≤ q) : 0 ≤ ratTrunc q := by
  rw [ratTrunc, if_pos h]
  exact Int.floor_nonneg.mpr h

lemma ratTrunc_nonpos {q : ℚ} (h : q ≤ 0) : ratTrunc q ≤ 0 := by
  by_cases h0 : 0 ≤ q
  · have hz : q = 0 := le_antisymm h h0
    subst hz
    simp [ratTrunc]
  · rw [ratTrunc, if_neg h0]
    have hq : (0 : ℚ) ≤ -q := by linarith
    have := Int.floor_nonneg.mpr hq
    omega

lemma ratTrunc_pair_le {a b : ℚ} {W : ℤ} (ha : 0 ≤ a) (hb : b ≤ (W : ℚ))
    (hw : 0 < ratTrunc (b - a)) : ratTrunc a + ratTrunc (b - a) ≤ W := by
  by_cases h : 0 ≤ b - a
  · rw [ratTrunc, if_pos ha]
    rw [ratTrunc, if_pos h] at hw ⊢
    have h1 : ⌊a⌋ + ⌊b - a⌋ ≤ ⌊b⌋ := by
      apply Int.le_floor.mpr
      push_cast
      have h2 := Int.floor_le a
      have h3 := Int.floor_le (b - a)
      linarith
    have h4 : ⌊b⌋ ≤ W := by
      calc ⌊b⌋ ≤ ⌊(W : ℚ)⌋ := Int.floor_le_floor hb
        _ = W := Int.floor_intCast W
    omega
  · have := ratTrunc_nonpos (le_of_lt (lt_of_not_ge h))
    omega

lemma clampTrunc_bounds {x1o x2o : ℚ} {W : ℤ}
    (hw : 0 < ratTrunc (max 0 (min (W : ℚ) x2o) - max 0 (min (W : ℚ) x1o))) :
    0 ≤ ratTrunc (max 0 (min (W : ℚ) x1o)) ∧
    ratTrunc (max 0 (min (W : ℚ) x1o)) +
      ratTrunc (max 0 (min (W : ℚ) x2o) - max 0 (min (W : ℚ) x1o)) ≤ W := by
  refine ⟨ratTrunc_nonneg (le_max_left _ _), ?_⟩
  by_cases hWq : (0 : ℚ) ≤ (W : ℚ)
  · exact ratTrunc_pair_le (le_max_left _ _) (max_le hWq (min_le_left _ _)) hw
  · exfalso
    have hx2 : max 0 (min (W : ℚ) x2o) = 0 :=
      max_eq_left (le_trans (min_le_left _ _) (le_of_not_le hWq))
    have hx1 : 0 ≤ max 0 (min (W : ℚ) x1o) := le_max_left _ _
    have hd : max 0 (min (W : ℚ) x2o) - max 0 (min (W : ℚ) x1o) ≤ 0 := by
      rw [hx2]; linarith
    have := ratTrunc_nonpos hd
    omega

lemma nmsSlotDets_bbox (info : NmsModelInfo) (lb : LetterboxInfo) (thr : ℚ)
    (data : List ℚ) (W H : ℤ) (det_params cls i : ℕ) :
    ∀ det ∈ nmsSlotDets info lb thr data W H det_params cls i, bboxWithinFrame det W H := by
  intro det hdet
  simp only [nmsSlotDets] at hdet
  split_ifs at hdet
  all_goals simp only [List.mem_singleton, List.not_mem_nil] at hdet
  all_goals subst hdet
  all_goals simp only [bboxWithinFrame]
  all_goals omega

lemma nmsRowLoop_bbox (info : NmsModelInfo) (lb : LetterboxInfo) (thr : ℚ)
    (data : List ℚ) (W H : ℤ) (det_params cls : ℕ) :
    ∀ (fuel i : ℕ), ∀ det ∈ nmsRowLoop info lb thr data W H det_params cls i fuel,
      bboxWithinFrame det W H := by
  intro fuel
  induction fuel with
  | zero => intro i det h; cases h
  | succ fuel ih =>
    intro i det h
    simp only [nmsRowLoop] at h
    split at h
    · cases h
    · rcases List.mem_append.mp h with h1 | h2
      · exact nmsSlotDets_bbox info lb thr data W H det_params cls i det h1
      · exact ih (i + 1) det h2

lemma parseNmsOutput_bbox (info : NmsModelInfo) (is_nms : Bool) (data : List ℚ)
    (thr : ℚ) (W H : ℤ) (lb : LetterboxInfo) :
    ∀ det ∈ parseNmsOutput info is_nms data thr W H lb, bboxWithinFrame det W H := by
  intro det h
  simp only [parseNmsOutput] at h
  split at h
  · cases h
  · rcases List.mem_flatMap.mp h with ⟨cls, hcls, hdet⟩
    exact nmsRowLoop_bbox info lb thr data W H _ cls info.max_bboxes_per_class 0 det hdet

lemma rawYoloEmitOne_bbox (labels : List String) (lb : LetterboxInfo) (W H : ℤ)
    (c : RawCandidate) :
    ∀ det ∈ rawYoloEmitOne labels lb W H c, bboxWithinFrame det W H := by
  intro det h
  simp only [rawYoloEmitOne] at h
  split_ifs at h with hc
  · rw [List.mem_singleton] at h
    subst h
    try dsimp only at hc
    simp only [bboxWithinFrame]
    try dsimp only
    obtain ⟨hcw, hch⟩ := hc
    have hx := clampTrunc_bounds hcw
    have hy := clampTrunc_bounds hch
    exact ⟨hx.1, hx.2, hy.1, hy.2⟩
  · cases h

lemma rawYoloEmit_bbox (labels : List String) (lb : LetterboxInfo) (W H : ℤ)
    (cands : List RawCandidate) :
    ∀ det ∈ rawYoloEmit labels lb W H cands, bboxWithinFrame det W H := by
  intro det h
  rcases List.mem_flatMap.mp h with ⟨c, hc, hdet⟩
  exact rawYoloEmitOne_bbox labels lb W H c det hdet

/-- C1: every detection emitted by either decode path has its bounding box
inside the original frame: `0 ≤ x`, `x + w ≤ W`, `0 ≤ y`, `y + h ≤ H`. -/
theorem c1_emitted_bbox_within_frame :
    (∀ (info : NmsModelInfo) (is_nms : Bool) (data : List ℚ) (thr : ℚ) (W H : ℤ)
      (lb : LetterboxInfo), ∀ det ∈ parseNmsOutput info is_nms data thr W H lb,
        bboxWithinFrame det W H) ∧
    (∀ (labels : List String) (lb : LetterboxInfo) (W H : ℤ) (cands : List RawCandidate),
      ∀ det ∈ rawYoloEmit labels lb W H cands, bboxWithinFrame det W H) :=
  ⟨fun info is_nms data thr W H lb => parseNmsOutput_bbox info is_nms data thr W H lb,
   fun labels lb W H cands => rawYoloEmit_bbox labels lb W H cands⟩

/-- C1 witness: one concrete emitted detection per decode path, inside a
1920 by 1080 and a 100 by 100 frame respectively. -/
theorem c1_emitted_bbox_witness :
    bboxWithinFrame { class_name := "person", class_id := 0, confidence := 9/10,
                      bbox := ⟨960, 540, 768, 540⟩ } 1920 1080 ∧
    bboxWithinFrame { class_name := "person", class_id := 0, confidence := 1/2,
                      bbox := ⟨10, 10, 20, 30⟩ } 100 100 := by
  constructor
  · apply c1_emitted_bbox_within_frame.1
      { num_classes := 1, max_bboxes_per_class := 1, task := "det", num_keypoints := 0,
        labels := ["person"], input_width := 960, input_height := 960 }
      true [1/2, 1/2, 9/10, 9/10, 9/10] (1/2) 1920 1080
      { scale := 1/2, pad_x := 0, pad_y := 210 }
    norm_num [parseNmsOutput, nmsRowLoop, nmsSlotDets, nmsKpLoop, ratTrunc, classNameFor,
      List.range_succ]
  · apply c1_emitted_bbox_within_frame.2 ["person"] { scale := 1, pad_x := 0, pad_y := 0 }
      100 100 [{ x1 := 10, y1 := 10, x2 := 30, y2 := 40, score := 1/2, class_id := 0 }]
    norm_num [rawYoloEmit, rawYoloEmitOne, ratTrunc, classNameFor]

/-- C2 counterexample: in the NMS decode path a pose keypoint that falls in
the letterbox pad region maps to a negative normalized coordinate; the
emitted keypoint has `y = -3/10`, outside `[0, 1]`. -/
theorem c2_counterexample_nms_keypoint_outside :
    ∃ kp ∈ (parseNmsOutput
      { num_classes := 1, max_bboxes_per_class := 1, task := "pose", num_keypoints := 1,
        labels := ["person"], input_width := 960, input_height := 960 }
      true [1/2, 1/2, 9/10, 9/10, 9/10, 1/2, 1/20, 9/10] (1/2) 1920 1080
      { scale := 1/2, pad_x := 0, pad_y := 210 }).flatMap (fun d => d.keypoints),
      kp.y < 0 := by
  norm_num [parseNmsOutput, nmsRowLoop, nmsSlotDets, nmsKpLoop, ratTrunc, classNameFor,
    List.range_succ]

/-- C2 amended: in the raw-YOLO decode path every emitted keypoint
coordinate lies in `[0, 1]` (keypoints are clipped to the frame before
normalizing); the NMS path performs no such clipping and its keypoints can
leave `[0, 1]`, as the counterexample shows. -/
theorem c2_raw_yolo_keypoints_unit_interval (labels : List String) (lb : LetterboxInfo)
    (W H : ℤ) (cands : List RawCandidate) (hW : 1 ≤ W) (hH : 1 ≤ H) :
    ∀ det ∈ rawYoloEmit labels lb W H cands, ∀ kp ∈ det.keypoints,
      0 ≤ kp.x ∧ kp.x ≤ 1 ∧ 0 ≤ kp.y ∧ kp.y ≤ 1 := by
  intro det hdet kp hkp
  rcases List.mem_flatMap.mp hdet with ⟨c, hc, hdet1⟩
  simp only [rawYoloEmitOne] at hdet1
  split_ifs at hdet1 with hcond
  · rw [List.mem_singleton] at hdet1
    subst hdet1
    simp only at hkp
    rcases List.mem_map.mp hkp with ⟨t, ht, hkpe⟩
    subst hkpe
    have hWq : (1 : ℚ) ≤ (W : ℚ) := by exact_mod_cast hW
    have hHq : (1 : ℚ) ≤ (H : ℚ) := by exact_mod_cast hH
    have hWpos : (0 : ℚ) < (W : ℚ) := by linarith
    have hHpos : (0 : ℚ) < (H : ℚ) := by linarith
    refine ⟨?_, ?_, ?_, ?_⟩
    · exact div_nonneg (le_max_left _ _) (le_of_lt hWpos)
    · apply (div_le_one hWpos).mpr
      apply max_le (by linarith)
      calc min ((t.1 - (lb.pad_x : ℚ)) / lb.scale) ((W : ℚ) - 1) ≤ (W : ℚ) - 1 :=
            min_le_right _ _
        _ ≤ (W : ℚ) := by linarith
    · exact div_nonneg (le_max_left _ _) (le_of_lt hHpos)
    · apply (div_le_one hHpos).mpr
      apply max_le (by linarith)
      calc min ((t.2.1 - (lb.pad_y : ℚ)) / lb.scale) ((H : ℚ) - 1) ≤ (H : ℚ) - 1 :=
            min_le_right _ _
        _ ≤ (H : ℚ) := by linarith
  · cases hdet1

/-- C2 witness: a concrete raw-YOLO candidate whose keypoint is clipped into
the frame and lands at `(1/2, 99/100)`. -/
theorem c2_raw_yolo_keypoints_witness :
    0 ≤ (Keypoint.mk (1/2) (99/100) 1).x ∧ (Keypoint.mk (1/2) (99/100) 1).x ≤ 1 ∧
    0 ≤ (Keypoint.mk (1/2) (99/100) 1).y ∧ (Keypoint.mk (1/2) (99/100) 1).y ≤ 1 := by
  apply c2_raw_yolo_keypoints_unit_interval ["person"] { scale := 1, pad_x := 0, pad_y := 0 }
    100 100 [{ x1 := 10, y1 := 10, x2 := 30, y2 := 40, score := 1/2, class_id := 0,
               kpts := [(50, 150, 1)] }]
    (by norm_num) (by norm_num)
    { class_name := "person", class_id := 0, confidence := 1/2, bbox := ⟨10, 10, 20, 30⟩,
      keypoints := [⟨1/2, 99/100, 1⟩] }
    (by norm_num [rawYoloEmit, rawYoloEmitOne, ratTrunc, classNameFor])
    (Keypoint.mk (1/2) (99/100) 1)
    (by norm_num)

/-- C7: for an AngleViolation setting with a line and a target-matching
detection with visible, non-degenerate keypoints 1 and 2, the angle is
folded to at most 90 degrees before the threshold comparison, and the
contribution is DANGER(2) exactly when the folded angle exceeds
`angle_threshold`, otherwise SAFE(0). -/
theorem c7_angle_folded_acute (setting : EventSetting) (det : Detection) (w h : ℤ)
    (hm : matchesTarget det setting.target = true)
    (hp : 2 ≤ setting.points.length)
    (hk : 3 ≤ det.keypoints.length)
    (hv1 : 3/10 ≤ (det.keypoints.getD 1 {}).visible)
    (hv2 : 3/10 ≤ (det.keypoints.getD 2 {}).visible)
    (hkl : (1 : ℝ)/1000000 ≤ kpLenR det)
    (hll : (1 : ℝ)/1000000 ≤ lineLenR setting) :
    foldedAngleDeg ((kpVec det).1 : ℝ) ((kpVec det).2 : ℝ)
      ((lineVec setting).1 : ℝ) ((lineVec setting).2 : ℝ) ≤ 90 ∧
    checkAngleViolationEvent setting det w h =
      (if foldedAngleDeg ((kpVec det).1 : ℝ) ((kpVec det).2 : ℝ)
          ((lineVec setting).1 : ℝ) ((lineVec setting).2 : ℝ) >
          (setting.angle_threshold : ℝ) then 2 else 0) := by
  constructor
  · rw [foldedAngleDeg]
    split
    · rename_i hgt
      linarith
    · rename_i hle
      linarith [not_lt.mp hle]
  · simp only [checkAngleViolationEvent]
    rw [if_neg (fun hc => hc hm)]
    rw [if_neg (by omega : ¬ setting.points.length < 2)]
    rw [if_neg (by omega : ¬ det.keypoints.length < 3)]
    rw [if_neg (show ¬ ((det.keypoints.getD 1 {}).visible < 3/10 ∨
        (det.keypoints.getD 2 {}).visible < 3/10) by
      push_neg
      exact ⟨hv1, hv2⟩)]
    rw [if_neg (show ¬ (kpLenR det < 1/1000000 ∨ lineLenR setting < 1/1000000) by
      push_neg
      exact ⟨hkl, hll⟩)]

/-- C7 witness: keypoint vector `(1, 0)` against line vector `(0, 1)` with a
threshold of 30 degrees; both lengths are 1 and the angle is exactly 90. -/
theorem c7_angle_folded_witness :
    foldedAngleDeg
      ((kpVec { class_name := "person",
                keypoints := [⟨0, 0, 0⟩, ⟨0, 0, 1⟩, ⟨1, 0, 1⟩] }).1 : ℝ)
      ((kpVec { class_name := "person",
                keypoints := [⟨0, 0, 0⟩, ⟨0, 0, 1⟩, ⟨1, 0, 1⟩] }).2 : ℝ)
      ((lineVec { event_type := .angleViolation, points := [⟨0, 0⟩, ⟨0, 1⟩],
                  angle_threshold := 30 }).1 : ℝ)
      ((lineVec { event_type := .angleViolation, points := [⟨0, 0⟩, ⟨0, 1⟩],
                  angle_threshold := 30 }).2 : ℝ) ≤ 90 ∧
    checkAngleViolationEvent
      { event_type := .angleViolation, points := [⟨0, 0⟩, ⟨0, 1⟩], angle_threshold := 30 }
      { class_name := "person", keypoints := [⟨0, 0, 0⟩, ⟨0, 0, 1⟩, ⟨1, 0, 1⟩] } 100 100 =
      (if foldedAngleDeg
          ((kpVec { class_name := "person",
                    keypoints := [⟨0, 0, 0⟩, ⟨0, 0, 1⟩, ⟨1, 0, 1⟩] }).1 : ℝ)
          ((kpVec { class_name := "person",
                    keypoints := [⟨0, 0, 0⟩, ⟨0, 0, 1⟩, ⟨1, 0, 1⟩] }).2 : ℝ)
          ((lineVec { event_type := .angleViolation, points := [⟨0, 0⟩, ⟨0, 1⟩],
                      angle_threshold := 30 }).1 : ℝ)
          ((lineVec { event_type := .angleViolation, points := [⟨0, 0⟩, ⟨0, 1⟩],
                      angle_threshold := 30 }).2 : ℝ) >
          (({ event_type := .angleViolation, points := [⟨0, 0⟩, ⟨0, 1⟩],
              angle_threshold := 30 } : EventSetting).angle_threshold : ℝ)
       then 2 else 0) :=
  c7_angle_folded_acute
    { event_type := .angleViolation, points := [⟨0, 0⟩, ⟨0, 1⟩], angle_threshold := 30 }
    { class_name := "person", keypoints := [⟨0, 0, 0⟩, ⟨0, 0, 1⟩, ⟨1, 0, 1⟩] } 100 100
    rfl (by norm_num) (by norm_num)
    (by norm_num [List.getD])
    (by norm_num [List.getD])
    (by norm_num [kpLenR, kpVec, List.getD, Real.sqrt_one])
    (by norm_num [lineLenR, lineVec, List.getD, Real.sqrt_one])

/-- C10: the engine always captures `batch_size = 1` no matter what the HEF
declares, so `GetBatchManager` returns null for every engine and no batch
coordinator is ever constructed: every stream runs direct inference. -/
theorem c10_batch_size_forced_one (hef : HefInfo) (registered : Bool) :
    (initCapture hef).batch_size = 1 ∧ getBatchManager (initCapture hef) registered = none := by
  have hb : (initCapture hef).batch_size = 1 := by
    rcases h : hef.inputs with _ | ⟨i, rest⟩ <;> simp [initCapture, h]
  exact ⟨hb, by simp [getBatchManager, hb]⟩

/-- C9: the stream-manager registry is untouched by every failing call:
adding a duplicate stream id, adding past the maximum stream count, and
removing or updating an unknown stream id each return an error and leave the
`stream_id` to processor mapping exactly as it was. -/
theorem c9_registry_errors_leave_map_unchanged {P : Type}
    (streams : List (String × P)) (stream_id : String)
    (create : Except String P) (start : P → Except String Unit)
    (upd : P → Except String P) :
    (containsKey streams stream_id = true →
      smAddStream streams stream_id create start =
        (streams, .error ("Stream " ++ stream_id ++ " already exists"))) ∧
    (containsKey streams stream_id = false → kMaxStreams ≤ streams.length →
      smAddStream streams stream_id create start =
        (streams, .error "Maximum number of streams (4) reached")) ∧
    (lookupKey streams stream_id = none →
      smRemoveStream streams stream_id =
        (streams, .error ("Stream " ++ stream_id ++ " not found"))) ∧
    (lookupKey streams stream_id = none →
      smUpdateStream streams stream_id upd =
        (streams, .error ("Stream " ++ stream_id ++ " not found"))) := by
  refine ⟨fun h => by simp [smAddStream, h], fun h1 h2 => ?_, fun h => ?_, fun h => ?_⟩
  · simp [smAddStream, h1, h2]
  · simp [smRemoveStream, h]
  · simp [smUpdateStream, h]

/-- C9 witness: concrete failing calls on a one-entry and a full registry. -/
theorem c9_registry_errors_witness :
    (containsKey [("s1", ())] "s1" = true →
      smAddStream [("s1", ())] "s1" (Except.ok ()) (fun _ => Except.ok ()) =
        ([("s1", ())], .error ("Stream " ++ "s1" ++ " already exists"))) ∧
    (containsKey [("s1", ())] "s9" = false ∧
      smAddStream [("a", ()), ("b", ()), ("c", ()), ("d", ())] "s9" (Except.ok ())
        (fun _ => Except.ok ()) =
        ([("a", ()), ("b", ()), ("c", ()), ("d", ())],
          .error "Maximum number of streams (4) reached")) ∧
    smRemoveStream [("s1", ())] "s9" = ([("s1", ())], .error ("Stream " ++ "s9" ++ " not found")) ∧
    smUpdateStream [("s1", ())] "s9" (fun p => Except.ok p) =
      ([("s1", ())], .error ("Stream " ++ "s9" ++ " not found")) := by
  refine ⟨?_, ⟨by decide, ?_⟩, ?_, ?_⟩
  · exact fun _ => (c9_registry_errors_leave_map_unchanged [("s1", ())] "s1"
      (Except.ok ()) (fun _ => Except.ok ()) (fun p => Except.ok p)).1 (by decide)
  · exact (c9_registry_errors_leave_map_unchanged [("a", ()), ("b", ()), ("c", ()), ("d", ())]
      "s9" (Except.ok ()) (fun _ => Except.ok ()) (fun p => Except.ok p)).2.1 (by decide) (by decide)
  · exact (c9_registry_errors_leave_map_unchanged [("s1", ())] "s9"
      (Except.ok ()) (fun _ => Except.ok ()) (fun p => Except.ok p)).2.2.1 (by decide)
  · exact (c9_registry_errors_leave_map_unchanged [("s1", ())] "s9"
      (Except.ok ()) (fun _ => Except.ok ()) (fun p => Except.ok p)).2.2.2 (by decide)

/-- C3 counterexample: a concrete envelope whose events map is non-empty and
whose serialization nevertheless carries no `events` member at all, refuting
the claimed `events` object in the publisher output. -/
theorem c3_counterexample_no_events_member :
    jsonLookup (serializeToJson
      { stream_id := "cam1", timestamp := 1000, frame_number := 1, fps := 30,
        width := 100, height := 100,
        detections := [{ class_name := "person", event_setting_ids := ["e1", "e2"] }],
        events := [("e1", { status := 2, labels := ["person"] })] }) "events" = none := by
  rfl

/-- C3 amended: the serializer emits no `events` member for any envelope,
and each serialized detection carries an `event` field holding the array of
all matched event ids, or null when none matched (the source reads the only
event member `Detection` has, the vector `event_setting_ids`). -/
theorem c3_serializer_envelope_shape (event : DetectionEvent) :
    jsonLookup (serializeToJson event) "events" = none ∧
    jsonLookup (serializeToJson event) "detections" =
      some (.arr (event.detections.map serializeDetection)) ∧
    ∀ det : Detection,
      jsonLookup (serializeDetection det) "event" =
        some (if det.event_setting_ids.isEmpty then Json.null
              else .arr (det.event_setting_ids.map .str)) := by
  refine ⟨?_, ?_, fun det => ?_⟩
  · by_cases h : event.image_data.isEmpty <;>
      simp [serializeToJson, jsonLookup, h, List.find?]
  · by_cases h : event.image_data.isEmpty <;>
      simp [serializeToJson, jsonLookup, h, List.find?]
  · by_cases hk : det.keypoints.isEmpty <;>
      by_cases he : det.event_setting_ids.isEmpty <;>
      simp [serializeDetection, jsonLookup, hk, he, List.find?]

/-- C8 counterexample: a well-formed settings JSON whose second config entry
carries a non-numeric `timeout`.  The parse fails after the first entry was
already inserted, so `UpdateSettings` returns an error yet leaves one
setting in the compositor, refuting the claimed zero settings after every
parse failure. -/
theorem c8_counterexample_partial_parse_state :
    (updateSettings ⟨[], []⟩ (some (.obj [("configs", .arr [
        .obj [("eventSettingId", .str "a")],
        .obj [("eventSettingId", .str "b"), ("timeout", .str "x")]])]))).2 =
      .error "type must be number" ∧
    getSettingCount (updateSettings ⟨[], []⟩ (some (.obj [("configs", .arr [
        .obj [("eventSettingId", .str "a")],
        .obj [("eventSettingId", .str "b"), ("timeout", .str "x")]])]))).1 = 1 := by
  exact ⟨rfl, rfl⟩

/-- C8 amended: a failed `UpdateSettings` returns an error, leaves the
terminal-event list empty, and never leaves prior settings in effect (the
state is cleared before parsing, so the result is independent of the prior
state); when the JSON text itself is malformed the settings map is empty,
but a conversion error during the configs loop retains the entries parsed
before the error. -/
theorem c8_parse_failure_clears_state (st : CompositorState) (input : Option Json)
    (st2 : CompositorState) (e : String)
    (h : updateSettings st input = (st2, .error e)) :
    st2.terminal_events = [] ∧
    (∀ st3 : CompositorState, updateSettings st3 input = (st2, .error e)) ∧
    (input = none → st2.settings = []) := by
  have hind : ∀ st3 : CompositorState, updateSettings st3 input = updateSettings st input := by
    intro st3
    cases input <;> rfl
  refine ⟨?_, fun st3 => (hind st3).trans h, fun hn => ?_⟩
  · cases input with
    | none =>
      simp only [updateSettings] at h
      injection h with h1 h2
      rw [← h1]
    | some j =>
      simp only [updateSettings] at h
      rcases hp : parseSettingsJ j with ⟨entries, err⟩
      rw [hp] at h
      cases err with
      | none => simp at h
      | some e0 =>
        injection h with h1 h2
        rw [← h1]
  · subst hn
    simp only [updateSettings] at h
    injection h with h1 h2
    rw [← h1]

/-- C8 witness of the amended statement, at a malformed-text input. -/
theorem c8_parse_failure_witness :
    ((updateSettings ⟨[("z", ({} : EventSetting))], ["z"]⟩ none).1.terminal_events = [] ∧
      (∀ st3 : CompositorState, updateSettings st3 none =
        ((updateSettings ⟨[("z", ({} : EventSetting))], ["z"]⟩ none).1,
          .error "JSON parse error")) ∧
      (none = (none : Option Json) →
        (updateSettings ⟨[("z", ({} : EventSetting))], ["z"]⟩ none).1.settings = [])) :=
  c8_parse_failure_clears_state ⟨[("z", ({} : EventSetting))], ["z"]⟩ none
    (updateSettings ⟨[("z", ({} : EventSetting))], ["z"]⟩ none).1 "JSON parse error" rfl

end EdgeCore
